import Mathlib

/-!
Shallow embedding of archr's QEMU tracer (`archr/arsenal/qemu_tracer.py`):
the `TraceResults` record, the crash classification and artifact-retrieval
logic of `fire_context`, the trace-log parser built on the two `Trace ...`
regular expressions, the `_build_command` / `qemu_variant` command builder,
and the stdin-feeding logic of `fire`.

External collaborators (the `target` object: `run_context`, `resolve_glob`,
`retrieve_contents`, `retrieve_into`) are modelled as an explicit
environment record supplying their observed answers; byte strings are
modelled as `List Char` (the trace log is ASCII) and `List Nat` (raw
buffers).
-/

namespace QemuTracer

/-- Fault signal numbers, as in Python's `signal` module: `signal.SIGSEGV`. -/
def SIGSEGV : Nat := 11

/-- Fault signal numbers, as in Python's `signal` module: `signal.SIGILL`. -/
def SIGILL : Nat := 4

/-- The `TraceResults` record of the source.  Every attribute defaults to
Python `None`, modelled as `Option.none`.  The live process handle and
socket are omitted (they carry no data the claims touch). -/
structure TraceResults where
  returncode : Option Int := none
  signal : Option Nat := none
  crashed : Option Bool := none
  timed_out : Option Bool := none
  trace : Option (List Nat) := none
  crash_address : Option Nat := none
  base_address : Option Nat := none
  magic_contents : Option (List Nat) := none
  core_path : Option String := none
deriving Repr, DecidableEq

/-- Errors a tracing session can abort with.  `archrError` models
`raise ArchrError(msg)`; the others model the Python exceptions the
source can raise on its own: `next` on an exhausted generator
(`StopIteration`, surfacing as `RuntimeError` from the generator-based
context manager), `None.group` (`AttributeError`), `list[i]` on a too-short
list (`IndexError`), and `int(s, 16)` on a malformed literal
(`ValueError`). -/
inductive TracerError where
  | archrError (msg : String)
  | stopIteration
  | attributeError
  | indexError
  | valueError
deriving Repr, DecidableEq

/-- Decidable equality of `Except` values, needed to evaluate a whole
session outcome on concrete inputs. -/
instance exceptDecEq {ε α : Type} [DecidableEq ε] [DecidableEq α] :
    DecidableEq (Except ε α) := fun x y =>
  match x, y with
  | .error a, .error b =>
    if h : a = b then isTrue (congrArg Except.error h)
    else isFalse (fun he => h (Except.error.inj he))
  | .ok a, .ok b =>
    if h : a = b then isTrue (congrArg Except.ok h)
    else isFalse (fun he => h (Except.ok.inj he))
  | .error _, .ok _ => isFalse (fun he => Except.noConfusion he)
  | .ok _, .error _ => isFalse (fun he => Except.noConfusion he)

/-- Python truthiness of an optional string (`if trace_filename:`):
`None` and the empty string are falsy. -/
def pyTruthy : Option String → Bool
  | none => false
  | some s => s.length != 0

/-- Python truthiness of a nullable boolean (`if r.crashed:` where
`crashed` is `None`, `True` or `False`). -/
def truthy : Option Bool → Bool
  | none => false
  | some b => b

/-- Python's `int == list` comparison: `int.__eq__` returns
`NotImplemented` and `list.__eq__(int)` is `False`, so the comparison is
always `False` (and raises nothing).  This embeds the source's
`r.returncode == [ 132, -9 ]` test on line 97 exactly as Python
evaluates it. -/
def pyEqIntList (_n : Int) (_l : List Int) : Bool := false

/-! ## Trace-log parsing (`fire_context`, lines 111-128)

The log is split into lines (`bytes.splitlines`), the first
`start_code` line yields the base address, and each later `Trace ` line
is matched against the OS-specific regular expression

  `_trace_old_re = Trace (.*) \[(?P<addr>.*)\].*`         (cgc)
  `_trace_new_re = Trace (.*) \[(.*)\/(?P<addr>.*)\/(.*)\].*`  (other)

whose `addr` group is read as a base-16 integer.  The greedy matches of
these two concrete patterns are embedded as explicit last-occurrence
splits; see `matchOldAddr` and `matchNewAddr`. -/

/-- `bytes.splitlines`: split at `\n`, `\r\n` or `\r`; a trailing
terminator does not produce a final empty line. -/
def splitlines : List Char → List (List Char)
  | [] => []
  | '\r' :: '\n' :: rest => [] :: splitlines rest
  | c :: rest =>
    if c = '\n' ∨ c = '\r' then [] :: splitlines rest
    else
      match splitlines rest with
      | [] => [[c]]
      | l :: ls => (c :: l) :: ls

/-- Split a list at the LAST occurrence of character `c`:
`splitLastChar c l = some (before, after)` with `l = before ++ c :: after`
and `c` absent from `after`; `none` when `c` does not occur. -/
def splitLastChar (c : Char) : List Char → Option (List Char × List Char)
  | [] => none
  | x :: xs =>
    match splitLastChar c xs with
    | some (b, a) => some (x :: b, a)
    | none => if x = c then some ([], xs) else none

/-- Split a list at the LAST occurrence of the two-character sequence
`" ["` (the literal ` \[` of both trace regular expressions):
`some (before, after)` with `l = before ++ ' ' :: '[' :: after`. -/
def splitLastSpaceBracket : List Char → Option (List Char × List Char)
  | [] => none
  | x :: xs =>
    (splitLastSpaceBracket xs).elim
      (if x = ' ' ∧ xs.head? = some '[' then some ([], xs.tail) else none)
      (fun p => some (x :: p.1, p.2))

/-- The literal line marker `Trace ` shared by both patterns. -/
def tracePfx : List Char := ['T', 'r', 'a', 'c', 'e', ' ']

/-- The literal line marker `start_code` of the base-address line. -/
def startCodePfx : List Char := ['s', 't', 'a', 'r', 't', '_', 'c', 'o', 'd', 'e']

/-- `_trace_old_re.match(t)` followed by `.group('addr')`, for the cgc
pattern `Trace (.*) \[(?P<addr>.*)\].*`.  Greedy matching of this
pattern selects the last `] ` closer and, before it, the last ` [`
opener: the first group maximises, then `addr` maximises up to the last
`]`.  Returns the `addr` group, or `none` when the pattern fails. -/
def matchOldAddr (t : List Char) : Option (List Char) :=
  if tracePfx.isPrefixOf t then
    match splitLastChar ']' (t.drop 6) with
    | none => none
    | some (v, _) =>
      match splitLastSpaceBracket v with
      | none => none
      | some (_, a) => some a
  else none

/-- `_trace_new_re.match(t)` followed by `.group('addr')`, for the
pattern `Trace (.*) \[(.*)\/(?P<addr>.*)\/(.*)\].*`.  Greedy matching
selects the last `]`, before it the last two `/` separators (the final
group maximises first, then `addr`), and requires some ` [` opener
before them.  Returns the middle slash-separated field. -/
def matchNewAddr (t : List Char) : Option (List Char) :=
  if tracePfx.isPrefixOf t then
    match splitLastChar ']' (t.drop 6) with
    | none => none
    | some (v, _) =>
      match splitLastChar '/' v with
      | none => none
      | some (w, _) =>
        match splitLastChar '/' w with
        | none => none
        | some (w2, a) =>
          match splitLastSpaceBracket w2 with
          | none => none
          | some _ => some a
  else none

/-- Line 119 of the source: `_trace_re = _trace_old_re if
self.target.target_os == 'cgc' else _trace_new_re`. -/
def traceMatch (target_os : String) (t : List Char) : Option (List Char) :=
  if target_os = "cgc" then matchOldAddr t else matchNewAddr t

/-- One hexadecimal digit, as accepted by Python's `int(s, 16)`. -/
def hexDigit? (c : Char) : Option Nat :=
  if '0' ≤ c ∧ c ≤ '9' then some (c.toNat - '0'.toNat)
  else if 'a' ≤ c ∧ c ≤ 'f' then some (c.toNat - 'a'.toNat + 10)
  else if 'A' ≤ c ∧ c ≤ 'F' then some (c.toNat - 'A'.toNat + 10)
  else none

/-- Strip the optional `0x` / `0X` prefix accepted by `int(s, 16)`. -/
def stripHexPfx : List Char → List Char
  | '0' :: 'x' :: rest => rest
  | '0' :: 'X' :: rest => rest
  | l => l

/-- Python's `int(s, 16)` on the non-negative hexadecimal literals the
emulator emits: an optional `0x`/`0X` prefix followed by at least one
hex digit.  Malformed input gives `none` (`ValueError`).  (Signs,
underscores and surrounding whitespace, which the emulator's format
never produces, are not modelled.) -/
def pyIntHex (l : List Char) : Option Nat :=
  let d := stripHexPfx l
  if d = [] then none
  else d.foldl (fun acc c => acc.bind fun a => (hexDigit? c).map fun v => 16 * a + v) (some 0)

/-- A whitespace character for Python's `str.split()` with no
separator. -/
def isSpaceChar (c : Char) : Bool :=
  c = ' ' || c = '\t' || c = '\n' || c = '\r' || c = '\x0b' || c = '\x0c'

/-- Accumulator worker for `pyWords`. -/
def wordsAux : List Char → List Char → List (List Char)
  | [], acc => if acc = [] then [] else [acc.reverse]
  | c :: rest, acc =>
    if isSpaceChar c then
      if acc = [] then wordsAux rest [] else acc.reverse :: wordsAux rest []
    else wordsAux rest (c :: acc)

/-- Python's `t.split()`: split on runs of whitespace, dropping empty
fields. -/
def pyWords (l : List Char) : List (List Char) := wordsAux l []

/-- Lines 113-122 of the source: split the retrieved trace log into
lines, consume the iterator up to and including the first `start_code`
line, read its second whitespace field as the base address, then map
the OS-specific regular expression over the remaining `Trace ` lines.
Returns `(base_address, trace)`. -/
def parseTraceContent (target_os : String) (content : List Char) :
    Except TracerError (Nat × List Nat) :=
  let lines := splitlines content
  match findStartCode lines with
  | none => .error .stopIteration
  | some (line, rest) =>
    match pyWords line with
    | _ :: w :: _ =>
      match pyIntHex w with
      | none => .error .valueError
      | some b => (traceAddrs target_os rest).map fun addrs => (b, addrs)
    | _ => .error .indexError
where
  /-- `next(t for t in trace_iter if t.startswith(b"start_code"))`:
  the first matching line together with the lines the iterator has not
  yet yielded. -/
  findStartCode : List (List Char) → Option (List Char × List (List Char))
    | [] => none
    | l :: ls => if startCodePfx.isPrefixOf l then some (l, ls) else findStartCode ls
  /-- The comprehension of lines 120-122: keep lines starting with
  `Trace `, apply the active pattern (`AttributeError` when it fails),
  and read the `addr` group in base 16. -/
  traceAddrs (target_os : String) : List (List Char) → Except TracerError (List Nat)
    | [] => .ok []
    | t :: ts =>
      if tracePfx.isPrefixOf t then
        match traceMatch target_os t with
        | none => .error .attributeError
        | some a =>
          match pyIntHex a with
          | none => .error .valueError
          | some v => (traceAddrs target_os ts).map fun vs => v :: vs
      else traceAddrs target_os ts

/-- Join lines into a single buffer, terminating each with `\n` — the
shape of a synthetic trace log used to state the parser round-trip. -/
def joinLines (ls : List (List Char)) : List Char :=
  ls.foldr (fun l acc => l ++ '\n' :: acc) []

/-- A line free of line terminators (so `splitlines` keeps it whole). -/
def cleanLine (l : List Char) : Bool := l.all fun c => c != '\n' && c != '\r'

/-- A line `Trace <g> [<a>]` of the cgc trace format. -/
def oldLine (g a : List Char) : List Char :=
  tracePfx ++ g ++ [' ', '['] ++ a ++ [']']

/-- A line `Trace <g> [<s1>/<a>/<f>]` of the general trace format. -/
def newLine (g s1 a f : List Char) : List Char :=
  tracePfx ++ g ++ [' ', '['] ++ s1 ++ ['/'] ++ a ++ ['/'] ++ f ++ [']']

/-- A well-formed trace-entry line for the active OS family, carrying
address value `v`: the cgc format is `Trace <g> [<addr>]`, the general
format `Trace <g> [<s1>/<addr>/<f>]`, with enough character
restrictions that the greedy pattern reads back exactly `<addr>`, which
must be a hexadecimal literal of value `v`. -/
def entrySpec (target_os : String) (line : List Char) (v : Nat) : Prop :=
  if target_os = "cgc" then
    ∃ g a, line = oldLine g a ∧
      cleanLine g = true ∧ cleanLine a = true ∧ '[' ∉ a ∧ pyIntHex a = some v
  else
    ∃ g s1 a f, line = newLine g s1 a f ∧
      cleanLine g = true ∧ cleanLine s1 = true ∧ cleanLine a = true ∧ cleanLine f = true ∧
      '/' ∉ a ∧ '/' ∉ f ∧ pyIntHex a = some v

/-! ## The `fire_context` session (lines 70-133) -/

/-- The caller-supplied options of `fire_context` plus the scratch name
`tempfile.mktemp(dir='/tmp', prefix="tracer-")` returned for this
session (`tmp_pfx` models the source's `tmp_prefix` local). -/
structure FireOpts where
  record_trace : Bool := true
  record_magic : Bool := false
  save_core : Bool := false
  tmp_pfx : String := "/tmp/tracer-x"
deriving Repr, DecidableEq

/-- The observed answers of the external execution target for one
session: whether the bounded wait raised `TimeoutExpired`, the process
return code, the answer of `resolve_glob(tmpdir + "/qemu_*.core")`, the
answer of the local `glob.glob` after `retrieve_into`, and the raw
contents `retrieve_contents` returns for the trace and magic files. -/
structure FireEnv where
  target_os : String := "linux"
  timed_out : Bool := false
  returncode : Int := 0
  target_cores : List String := []
  local_cores : List String := []
  trace_content : List Char := []
  magic_content : List Nat := []
deriving Repr, DecidableEq

/-- Lines 90-99: after a non-timed-out session record the return code
and classify the exit status.  `returncode in [139, -11]` marks a
segmentation violation; the `elif returncode == [132, -9]` branch
compares an `int` with a `list` (see `pyEqIntList`). -/
def classifyCrash (timed_out : Bool) (rc : Int) (r : TraceResults) : TraceResults :=
  if ¬ timed_out then
    let r := { r with returncode := some rc }
    if rc ∈ ([139, -11] : List Int) then
      { r with crashed := some true, signal := some SIGSEGV }
    else if pyEqIntList rc [132, -9] then
      { r with crashed := some true, signal := some SIGILL }
    else r
  else r

/-- Lines 101-109: core-dump retrieval.  `resolve_glob` must produce
exactly one path (`ArchrError` otherwise); the file is copied into a
local temporary directory (`retrieve_into`), the local glob's first
entry (`cores[0]`, `IndexError` when the copy left nothing) is moved to
`local_core_filename`, which is recorded in the result. -/
def coreStep (local_core_filename : Option String)
    (target_cores local_cores : List String) (r : TraceResults) :
    Except TracerError TraceResults :=
  if pyTruthy local_core_filename then
    if target_cores.length ≠ 1 then
      .error (.archrError ("expected 1 core file but found " ++ toString target_cores.length))
    else
      match local_cores with
      | [] => .error .indexError
      | _ :: _ => .ok { r with core_path := local_core_filename }
  else .ok r

/-- Lines 111-128: trace retrieval and parsing.  Sets `base_address`
and `trace`; when `r.crashed` is truthy the crash address is
`r.trace[-1]` (`IndexError` on an empty trace). -/
def traceStep (target_os : String) (target_trace_filename : Option String)
    (content : List Char) (r : TraceResults) : Except TracerError TraceResults :=
  if pyTruthy target_trace_filename then
    match parseTraceContent target_os content with
    | .error e => .error e
    | .ok (b, addrs) =>
      let r := { r with base_address := some b, trace := some addrs }
      if truthy r.crashed then
        match addrs.getLast? with
        | none => .error .indexError
        | some a => .ok { r with crash_address := some a }
      else .ok r
  else .ok r

/-- Lines 130-133: magic-page retrieval.  The contents are stored and
must be exactly one page (`0x1000` bytes) long, otherwise
`ArchrError` aborts the session. -/
def magicStep (target_magic_filename : Option String)
    (content : List Nat) (r : TraceResults) : Except TracerError TraceResults :=
  if pyTruthy target_magic_filename then
    let r := { r with magic_contents := some content }
    if content.length ≠ 0x1000 then
      .error (.archrError "Magic content read from QEMU improper size, should be a page in length")
    else .ok r
  else .ok r

/-- The post-yield half of `fire_context` (lines 73-133): derive the
per-artifact file names from the scratch prefix, set `timed_out`,
classify the exit status, then run core-dump, trace and magic
retrieval in source order.  A thrown `TracerError` models an exception
propagating out of the context manager (the caller never sees the
half-filled record). -/
def fire_context (opts : FireOpts) (env : FireEnv) : Except TracerError TraceResults :=
  let target_trace_filename := if opts.record_trace then some (opts.tmp_pfx ++ ".trace") else none
  let target_magic_filename := if opts.record_magic then some (opts.tmp_pfx ++ ".magic") else none
  let local_core_filename := if opts.save_core then some (opts.tmp_pfx ++ ".core") else none
  let r0 : TraceResults := { timed_out := some env.timed_out }
  let r1 := classifyCrash env.timed_out env.returncode r0
  match coreStep local_core_filename env.target_cores env.local_cores r1 with
  | .error e => .error e
  | .ok r2 =>
    match traceStep env.target_os target_trace_filename env.trace_content r2 with
    | .error e => .error e
    | .ok r3 => magicStep target_magic_filename env.magic_content r3

/-! ## Command builder (`qemu_variant`, `_build_command`, lines 137-208) -/

/-- The read-only metadata of the execution target used by the command
builder: OS family, architecture, declared environment and program
arguments. -/
structure TargetMeta where
  target_os : String := "linux"
  target_arch : String := "x86_64"
  target_env : List String := []
  target_args : List String := []
deriving Repr, DecidableEq

/-- Lines 137-149: choose the emulator build variant.  For the cgc OS
family a `tracer` or `base` build depending on whether a trace is
recorded, otherwise the architecture-specific Linux build. -/
def qemu_variant (target_os target_arch : String) (record_trace : Bool) : String :=
  if target_os = "cgc" then
    "shellphish-qemu-cgc-" ++ (if record_trace then "tracer" else "base")
  else
    "shellphish-qemu-linux-" ++ target_arch

/-- Contiguous-sublist test on character lists. -/
def listContains (l sub : List Char) : Bool :=
  match l with
  | [] => sub.isEmpty
  | _ :: xs => sub.isPrefixOf l || listContains xs sub

/-- Python's `sub in s` substring test on strings. -/
def strContains (s sub : String) : Bool := listContains s.toList sub.toList

/-- Lines 151-208: build the emulator argument vector.  The structure
mirrors the source exactly: launcher path and variant, `-C` coredump
directory, trace flags (dispatching on `'cgc' in qemu_variant`) or
`-enable_double_empty_exiting`, `-magicdump`, `-seed`,
`-report_bad_args`, the cgc memory limit, the `LD_BIND_NOW` /
`LD_LIBRARY_PATH` environment overrides, and finally the target's
declared arguments. -/
def _build_command (meta : TargetMeta) (trace_filename library_path magic_filename : Option String)
    (coredump_dir : String := ".") (report_bad_args : Bool := false)
    (seed : Option Nat := none) : List String :=
  let v := qemu_variant meta.target_os meta.target_arch trace_filename.isSome
  ["/tmp/shellphish_qemu/fire", v, "-C", coredump_dir] ++
    ((if pyTruthy trace_filename then
        (if ¬ strContains v "cgc" then
          ["-d", "nochain,exec,page", "-D", trace_filename.getD ""]
        else
          ["-d", "exec", "-D", trace_filename.getD ""])
      else ["-enable_double_empty_exiting"]) ++
    ((if pyTruthy magic_filename then ["-magicdump", magic_filename.getD ""] else []) ++
    ((match seed with | some s => ["-seed", toString s] | none => []) ++
    ((if report_bad_args then ["-report_bad_args"] else []) ++
    ((if strContains v "cgc" then ["-m", "8G"] else []) ++
    ((if ¬ strContains v "cgc" ∧ "LD_BIND_NOW=1" ∉ meta.target_env then
        ["-E", "LD_BIND_NOW=1"]
      else []) ++
    ((match library_path with
      | some lp => if lp.length != 0 then ["-E", "LD_LIBRARY_PATH=" ++ lp] else []
      | none => []) ++
    meta.target_args)))))))

/-! ## `fire` (lines 58-68): testcase normalisation and stdin feeding -/

/-- A Python value acceptable as one testcase element: `str` or
`bytes`. -/
inductive PyVal where
  | str (s : String)
  | bytes (b : List Nat)
deriving Repr, DecidableEq

/-- The `testcase` argument of `fire`: either a single `str`/`bytes`
value (the `type(testcase) in [str, bytes]` branch) or an iterable of
such values (list/tuple; the default is the empty tuple). -/
inductive TestcaseArg where
  | scalar (v : PyVal)
  | seq (vs : List PyVal)
deriving Repr, DecidableEq

/-- Lines 59-60: a bare `str` or `bytes` testcase is wrapped into a
one-element list; an iterable is used as is. -/
def normalizeTestcase : TestcaseArg → List PyVal
  | .scalar v => [v]
  | .seq vs => vs

/-- `t.encode('utf-8')` for a `str`; a `bytes` value is written as
is (line 64). -/
def pyEncodeElem : PyVal → List Nat
  | .str s => s.toUTF8.toList.map (fun b => b.toNat)
  | .bytes b => b

/-- The operations `fire` performs on the live process's stdin, in
order. -/
inductive StdinEvent where
  | write (data : List Nat)
  | closeStdin
deriving Repr, DecidableEq

/-- Lines 62-66: inside the `fire_context` scope, each element of the
normalised testcase is written to `r.process.stdin` in order (strings
UTF-8 encoded first) and then the stream is closed, still inside the
scope. -/
def fireStdinEvents (tc : TestcaseArg) : List StdinEvent :=
  (normalizeTestcase tc).map (fun t => StdinEvent.write (pyEncodeElem t)) ++ [StdinEvent.closeStdin]

/-! ## Lemmas about the splitting helpers -/

theorem splitLastChar_of_not_mem (c : Char) (l : List Char) (h : c ∉ l) :
    splitLastChar c l = none := by
  induction l with
  | nil => rfl
  | cons x xs ih =>
    simp only [List.mem_cons, not_or] at h
    simp [splitLastChar, ih h.2, h.1, Ne.symm h.1]

theorem splitLastChar_append (c : Char) (l r : List Char) (h : c ∉ r) :
    splitLastChar c (l ++ c :: r) = some (l, r) := by
  induction l with
  | nil => simp [splitLastChar, splitLastChar_of_not_mem c r h]
  | cons x xs ih => simp [splitLastChar, ih]

theorem splitLastSpaceBracket_of_not_mem (l : List Char) (h : '[' ∉ l) :
    splitLastSpaceBracket l = none := by
  induction l with
  | nil => rfl
  | cons x xs ih =>
    simp only [List.mem_cons, not_or] at h
    rw [splitLastSpaceBracket, ih h.2]
    cases xs with
    | nil => simp
    | cons y ys =>
      have hy : y ≠ '[' := by
        intro he
        exact h.2 (by simp [he])
      simp [hy]

theorem splitLastSpaceBracket_bracket_cons (a : List Char) (h : '[' ∉ a) :
    splitLastSpaceBracket ('[' :: a) = none := by
  rw [splitLastSpaceBracket, splitLastSpaceBracket_of_not_mem a h]
  simp

theorem splitLastSpaceBracket_append (g a : List Char) (h : '[' ∉ a) :
    splitLastSpaceBracket (g ++ ' ' :: '[' :: a) = some (g, a) := by
  induction g with
  | nil =>
    rw [List.nil_append, splitLastSpaceBracket, splitLastSpaceBracket_bracket_cons a h]
    simp
  | cons x xs ih =>
    rw [List.cons_append, splitLastSpaceBracket, ih]
    simp

theorem splitLastSpaceBracket_isSome (g s1 : List Char) :
    (splitLastSpaceBracket (g ++ ' ' :: '[' :: s1)).isSome = true := by
  induction g with
  | nil =>
    rw [List.nil_append, splitLastSpaceBracket]
    cases hs : splitLastSpaceBracket ('[' :: s1) with
    | some p => simp
    | none => simp
  | cons x xs ih =>
    rw [List.cons_append, splitLastSpaceBracket]
    cases hs : splitLastSpaceBracket (xs ++ ' ' :: '[' :: s1) with
    | some p => simp
    | none => rw [hs] at ih; simp at ih

theorem isPrefixOf_append_self (p x : List Char) : p.isPrefixOf (p ++ x) = true := by
  induction p with
  | nil => simp
  | cons c cs ih => simp [List.isPrefixOf_cons₂, ih]

theorem drop_tracePfx (x : List Char) : (tracePfx ++ x).drop 6 = x := rfl

/-! ## The two regular expressions on well-formed lines -/

theorem matchOldAddr_wf (g a : List Char) (h : '[' ∉ a) :
    matchOldAddr (oldLine g a) = some a := by
  have hline : oldLine g a = tracePfx ++ ((g ++ ' ' :: '[' :: a) ++ ']' :: []) := by
    simp [oldLine, List.append_assoc]
  rw [hline, matchOldAddr]
  rw [if_pos (isPrefixOf_append_self tracePfx _), drop_tracePfx]
  rw [splitLastChar_append ']' _ [] (by simp)]
  simp only [splitLastSpaceBracket_append g a h]

theorem matchNewAddr_wf (g s1 a f : List Char) (ha : '/' ∉ a) (hf : '/' ∉ f) :
    matchNewAddr (newLine g s1 a f) = some a := by
  have h2 : splitLastChar '/' (((g ++ ' ' :: '[' :: s1) ++ '/' :: a) ++ '/' :: f) =
      some ((g ++ ' ' :: '[' :: s1) ++ '/' :: a, f) := splitLastChar_append '/' _ f hf
  have h3 : splitLastChar '/' ((g ++ ' ' :: '[' :: s1) ++ '/' :: a) =
      some (g ++ ' ' :: '[' :: s1, a) := splitLastChar_append '/' _ a ha
  have hline : newLine g s1 a f =
      tracePfx ++ ((((g ++ ' ' :: '[' :: s1) ++ '/' :: a) ++ '/' :: f) ++ ']' :: []) := by
    simp [newLine, List.append_assoc]
  rw [hline, matchNewAddr]
  rw [if_pos (isPrefixOf_append_self tracePfx _), drop_tracePfx]
  rw [splitLastChar_append ']' _ [] (by simp)]
  simp only [h2, h3]
  cases hs : splitLastSpaceBracket (g ++ ' ' :: '[' :: s1) with
  | some p => rfl
  | none =>
    have hsome := splitLastSpaceBracket_isSome g s1
    rw [hs] at hsome
    simp at hsome

/-! ## `splitlines` on newline-joined clean lines -/

theorem splitlines_nl (rest : List Char) :
    splitlines ('\n' :: rest) = [] :: splitlines rest := rfl

theorem splitlines_cons (c : Char) (rest : List Char) (h1 : c ≠ '\n') (h2 : c ≠ '\r') :
    splitlines (c :: rest) =
      match splitlines rest with
      | [] => [[c]]
      | l :: ls => (c :: l) :: ls := by
  rw [splitlines]
  · simp [h1, h2]
  · intro rest1 hc _
    exact h2 hc

theorem splitlines_line (l rest : List Char) (h : cleanLine l = true) :
    splitlines (l ++ '\n' :: rest) = l :: splitlines rest := by
  induction l with
  | nil => exact splitlines_nl rest
  | cons c cs ih =>
    rw [cleanLine, List.all_cons] at h
    simp only [Bool.and_eq_true, bne_iff_ne] at h
    obtain ⟨⟨h1, h2⟩, h3⟩ := h
    rw [List.cons_append, splitlines_cons c _ h1 h2, ih (by simpa [cleanLine] using h3)]

theorem splitlines_joinLines (ls : List (List Char)) (h : ∀ l ∈ ls, cleanLine l = true) :
    splitlines (joinLines ls) = ls := by
  induction ls with
  | nil => rfl
  | cons l ls ih =>
    have hl : cleanLine l = true := h l (by simp)
    rw [joinLines, List.foldr_cons, splitlines_line l _ hl]
    rw [show (List.foldr (fun l acc => l ++ '\n' :: acc) [] ls) = joinLines ls from rfl]
    rw [ih (fun x hx => h x (by simp [hx]))]

/-! ## `str.split()` on a two-word line -/

theorem wordsAux_nospace (w acc : List Char) (h : ∀ c ∈ w, isSpaceChar c = false) :
    wordsAux w acc = if acc = [] ∧ w = [] then [] else [acc.reverse ++ w] := by
  induction w generalizing acc with
  | nil =>
    rw [wordsAux]
    by_cases ha : acc = [] <;> simp [ha]
  | cons c cs ih =>
    have hc : isSpaceChar c = false := h c (by simp)
    rw [wordsAux, if_neg (by simp [hc])]
    rw [ih (c :: acc) (fun x hx => h x (by simp [hx]))]
    simp

theorem wordsAux_word_space (u rest acc : List Char)
    (hu : ∀ c ∈ u, isSpaceChar c = false) (hne : acc.reverse ++ u ≠ []) :
    wordsAux (u ++ ' ' :: rest) acc = (acc.reverse ++ u) :: wordsAux rest [] := by
  induction u generalizing acc with
  | nil =>
    have ha : acc ≠ [] := by simpa using hne
    rw [List.nil_append, wordsAux, if_pos (by decide)]
    simp [ha]
  | cons c cs ih =>
    have hc : isSpaceChar c = false := hu c (by simp)
    rw [List.cons_append, wordsAux, if_neg (by simp [hc])]
    rw [ih (c :: acc) (fun x hx => hu x (by simp [hx])) (by simp)]
    simp

theorem pyWords_start_code (w : List Char) (hw : ∀ c ∈ w, isSpaceChar c = false)
    (hne : w ≠ []) :
    pyWords (startCodePfx ++ ' ' :: w) = [startCodePfx, w] := by
  rw [pyWords, wordsAux_word_space startCodePfx w []
    (by decide) (by simp [startCodePfx])]
  rw [wordsAux_nospace w [] hw]
  simp [hne, startCodePfx]

/-! ## Cleanliness of well-formed lines -/

theorem cleanLine_append (a b : List Char) :
    cleanLine (a ++ b) = (cleanLine a && cleanLine b) := by
  simp [cleanLine]

theorem cleanLine_of_nospace (w : List Char) (hw : ∀ c ∈ w, isSpaceChar c = false) :
    cleanLine w = true := by
  rw [cleanLine, List.all_eq_true]
  intro c hc
  have hsp := hw c hc
  by_cases hn : c = '\n'
  · rw [hn] at hsp
    exact absurd hsp (by decide)
  · by_cases hr : c = '\r'
    · rw [hr] at hsp
      exact absurd hsp (by decide)
    · simp [hn, hr]

theorem entrySpec_clean (os : String) (line : List Char) (v : Nat)
    (h : entrySpec os line v) : cleanLine line = true := by
  by_cases hos : os = "cgc"
  · rw [entrySpec, if_pos hos] at h
    obtain ⟨g, a, hline, hg, hca, -, -⟩ := h
    rw [hline, oldLine, tracePfx]
    simp [cleanLine, List.all_append] at hg hca ⊢
    exact ⟨hg, hca⟩
  · rw [entrySpec, if_neg hos] at h
    obtain ⟨g, s1, a, f, hline, hg, hs1, hca, hcf, -, -, -⟩ := h
    rw [hline, newLine, tracePfx]
    simp [cleanLine, List.all_append] at hg hs1 hca hcf ⊢
    exact ⟨hg, hs1, hca, hcf⟩

/-! ## The parser on a synthetic well-formed log -/

theorem entrySpec_match (os : String) (line : List Char) (v : Nat)
    (h : entrySpec os line v) :
    tracePfx.isPrefixOf line = true ∧
      ∃ a, traceMatch os line = some a ∧ pyIntHex a = some v := by
  by_cases hos : os = "cgc"
  · rw [entrySpec, if_pos hos] at h
    obtain ⟨g, a, hline, -, -, hbr, hhex⟩ := h
    have hsh : line = tracePfx ++ (g ++ [' ', '['] ++ (a ++ [']'])) := by
      simp [hline, oldLine, List.append_assoc]
    refine ⟨by rw [hsh]; exact isPrefixOf_append_self _ _, a, ?_, hhex⟩
    rw [traceMatch, if_pos hos, hline, matchOldAddr_wf g a hbr]
  · rw [entrySpec, if_neg hos] at h
    obtain ⟨g, s1, a, f, hline, -, -, -, -, hsa, hsf, hhex⟩ := h
    have hsh : line = tracePfx ++ (g ++ [' ', '['] ++ (s1 ++ ['/'] ++ (a ++ ['/'] ++ (f ++ [']'])))) := by
      simp [hline, newLine, List.append_assoc]
    refine ⟨by rw [hsh]; exact isPrefixOf_append_self _ _, a, ?_, hhex⟩
    rw [traceMatch, if_neg hos, hline, matchNewAddr_wf g s1 a f hsa hsf]

theorem findStartCode_cons_of_prefix (l : List Char) (ls : List (List Char))
    (h : startCodePfx.isPrefixOf l = true) :
    parseTraceContent.findStartCode (l :: ls) = some (l, ls) := by
  rw [parseTraceContent.findStartCode, if_pos h]

theorem traceAddrs_entries (os : String) (pairs : List (List Char × Nat))
    (h : ∀ p ∈ pairs, entrySpec os p.1 p.2) :
    parseTraceContent.traceAddrs os (pairs.map Prod.fst) =
      Except.ok (pairs.map Prod.snd) := by
  induction pairs with
  | nil => rfl
  | cons p ps ih =>
    obtain ⟨hpref, a, hmatch, hhex⟩ := entrySpec_match os p.1 p.2 (h p (by simp))
    rw [List.map_cons, List.map_cons, parseTraceContent.traceAddrs, if_pos hpref]
    simp only [hmatch, hhex, ih (fun q hq => h q (by simp [hq]))]
    rfl

theorem parseTraceContent_roundtrip (os : String) (w : List Char) (B : Nat)
    (pairs : List (List Char × Nat))
    (hw : ∀ c ∈ w, isSpaceChar c = false) (hwne : w ≠ []) (hB : pyIntHex w = some B)
    (hp : ∀ p ∈ pairs, entrySpec os p.1 p.2) :
    parseTraceContent os (joinLines ((startCodePfx ++ ' ' :: w) :: pairs.map Prod.fst)) =
      Except.ok (B, pairs.map Prod.snd) := by
  have hclean : ∀ l ∈ (startCodePfx ++ ' ' :: w) :: pairs.map Prod.fst, cleanLine l = true := by
    intro l hl
    rcases List.mem_cons.1 hl with hl0 | hl1
    · subst hl0
      have hcw := cleanLine_of_nospace w hw
      rw [startCodePfx]
      simp [cleanLine, List.all_append] at hcw ⊢
      exact hcw
    · obtain ⟨p, hpmem, rfl⟩ := List.mem_map.1 hl1
      exact entrySpec_clean os p.1 p.2 (hp p hpmem)
  rw [parseTraceContent, splitlines_joinLines _ hclean,
    findStartCode_cons_of_prefix _ _ (isPrefixOf_append_self _ _)]
  simp only [pyWords_start_code w hw hwne, hB, traceAddrs_entries os pairs hp]
  rfl

/-! ## Truthiness of the scratch file names -/

theorem pyTruthy_none : pyTruthy none = false := rfl

theorem pyTruthy_append_suffix (p s : String) (h : s.length ≠ 0) :
    pyTruthy (some (p ++ s)) = true := by
  rw [pyTruthy]
  simp [String.length_append]
  omega

theorem pyTruthy_if_suffix (b : Bool) (p s : String) (h : s.length ≠ 0) :
    pyTruthy (if b then some (p ++ s) else none) = b := by
  cases b
  · rfl
  · simp only [if_pos]
    exact pyTruthy_append_suffix p s h

/-! ## Crash classification -/

theorem classifyCrash_timedOut (rc : Int) (r : TraceResults) :
    classifyCrash true rc r = r := by
  rw [classifyCrash]
  simp

theorem classifyCrash_segv (rc : Int) (r : TraceResults) (h : rc = 139 ∨ rc = -11) :
    classifyCrash false rc r =
      { r with returncode := some rc, crashed := some true, signal := some SIGSEGV } := by
  rcases h with h | h <;> subst h <;> simp [classifyCrash]

theorem classifyCrash_plain (rc : Int) (r : TraceResults) (h1 : rc ≠ 139) (h2 : rc ≠ -11) :
    classifyCrash false rc r = { r with returncode := some rc } := by
  simp [classifyCrash, pyEqIntList, h1, h2]

theorem classifyCrash_preserves (t : Bool) (rc : Int) (r : TraceResults) :
    (classifyCrash t rc r).timed_out = r.timed_out ∧
    (classifyCrash t rc r).trace = r.trace ∧
    (classifyCrash t rc r).base_address = r.base_address ∧
    (classifyCrash t rc r).crash_address = r.crash_address ∧
    (classifyCrash t rc r).magic_contents = r.magic_contents ∧
    (classifyCrash t rc r).core_path = r.core_path := by
  unfold classifyCrash
  split
  · split
    · simp
    · split
      · simp
      · simp
  · simp

/-! ## Core-dump retrieval -/

theorem coreStep_not_requested (lcf : Option String) (tc lc : List String)
    (r : TraceResults) (h : pyTruthy lcf = false) : coreStep lcf tc lc r = .ok r := by
  rw [coreStep.eq_def]
  simp [h]

theorem coreStep_cardinality (lcf : Option String) (tc lc : List String)
    (r : TraceResults) (h : pyTruthy lcf = true) (hn : tc.length ≠ 1) :
    coreStep lcf tc lc r =
      .error (.archrError ("expected 1 core file but found " ++ toString tc.length)) := by
  rw [coreStep.eq_def]
  simp [h, hn]

theorem coreStep_success (lcf : Option String) (tc lc : List String)
    (r : TraceResults) (h : pyTruthy lcf = true) (h1 : tc.length = 1) (h2 : lc ≠ []) :
    coreStep lcf tc lc r = .ok { r with core_path := lcf } := by
  cases lc with
  | nil => exact absurd rfl h2
  | cons c cs =>
    rw [coreStep.eq_def]
    simp [h, h1]

theorem coreStep_ok_shape (lcf : Option String) (tc lc : List String)
    (r r2 : TraceResults) (h : coreStep lcf tc lc r = .ok r2) :
    r2.returncode = r.returncode ∧ r2.signal = r.signal ∧ r2.crashed = r.crashed ∧
    r2.timed_out = r.timed_out ∧ r2.trace = r.trace ∧
    r2.crash_address = r.crash_address ∧ r2.base_address = r.base_address ∧
    r2.magic_contents = r.magic_contents := by
  rw [coreStep.eq_def] at h
  by_cases ht : pyTruthy lcf = true
  · rw [if_pos ht] at h
    by_cases hn : tc.length ≠ 1
    · rw [if_pos hn] at h
      simp at h
    · rw [if_neg hn] at h
      cases lc with
      | nil => simp at h
      | cons c cs =>
        simp only [Except.ok.injEq] at h
        subst h
        simp
  · rw [if_neg (by simp [Bool.not_eq_true] at ht; simp [ht])] at h
    simp only [Except.ok.injEq] at h
    subst h
    simp

/-! ## Trace retrieval -/

theorem traceStep_not_requested (os : String) (tf : Option String) (c : List Char)
    (r : TraceResults) (h : pyTruthy tf = false) : traceStep os tf c r = .ok r := by
  rw [traceStep]
  simp [h]

theorem traceStep_error_parse (os : String) (tf : Option String) (c : List Char)
    (r : TraceResults) (e : TracerError) (ht : pyTruthy tf = true)
    (hp : parseTraceContent os c = .error e) : traceStep os tf c r = .error e := by
  rw [traceStep, if_pos ht, hp]

theorem traceStep_ok_not_crashed (os : String) (tf : Option String) (c : List Char)
    (r : TraceResults) (b : Nat) (addrs : List Nat) (ht : pyTruthy tf = true)
    (hc : truthy r.crashed = false) (hp : parseTraceContent os c = .ok (b, addrs)) :
    traceStep os tf c r = .ok { r with base_address := some b, trace := some addrs } := by
  rw [traceStep, if_pos ht, hp]
  simp [hc]

theorem traceStep_ok_crashed (os : String) (tf : Option String) (c : List Char)
    (r : TraceResults) (b aa : Nat) (addrs : List Nat) (ht : pyTruthy tf = true)
    (hc : truthy r.crashed = true) (hp : parseTraceContent os c = .ok (b, addrs))
    (hl : addrs.getLast? = some aa) :
    traceStep os tf c r = Except.ok { r with base_address := some b, trace := some addrs, crash_address := some aa } := by
  rw [traceStep, if_pos ht, hp]
  simp [hc, hl]

theorem traceStep_crashed_empty (os : String) (tf : Option String) (c : List Char)
    (r : TraceResults) (b : Nat) (ht : pyTruthy tf = true)
    (hc : truthy r.crashed = true) (hp : parseTraceContent os c = .ok (b, [])) :
    traceStep os tf c r = .error .indexError := by
  rw [traceStep, if_pos ht, hp]
  simp [hc]

theorem traceStep_ok_shape (os : String) (tf : Option String) (c : List Char)
    (r r3 : TraceResults) (ht : pyTruthy tf = true)
    (h : traceStep os tf c r = .ok r3) :
    ∃ b addrs, parseTraceContent os c = .ok (b, addrs) ∧
      r3.base_address = some b ∧ r3.trace = some addrs ∧
      r3.returncode = r.returncode ∧ r3.signal = r.signal ∧ r3.crashed = r.crashed ∧
      r3.timed_out = r.timed_out ∧ r3.magic_contents = r.magic_contents ∧
      r3.core_path = r.core_path ∧
      (truthy r.crashed = false → r3.crash_address = r.crash_address) ∧
      (truthy r.crashed = true → addrs ≠ [] ∧ r3.crash_address = addrs.getLast?) := by
  rw [traceStep, if_pos ht] at h
  cases hp : parseTraceContent os c with
  | error e =>
    rw [hp] at h
    simp at h
  | ok p =>
    obtain ⟨b, addrs⟩ := p
    rw [hp] at h
    simp only [] at h
    refine ⟨b, addrs, rfl, ?_⟩
    by_cases hc : truthy r.crashed = true
    · rw [if_pos (by simpa using hc)] at h
      cases hl : addrs.getLast? with
      | none =>
        rw [hl] at h
        simp at h
      | some aa =>
        rw [hl] at h
        simp only [Except.ok.injEq] at h
        subst h
        refine ⟨rfl, rfl, rfl, rfl, rfl, rfl, rfl, rfl, ?_, ?_⟩
        · intro hcf
          rw [hcf] at hc
          cases hc
        · intro _
          constructor
          · intro he
            subst he
            simp at hl
          · simp [hl]
    · have hcf : truthy r.crashed = false := by
        cases hcc : truthy r.crashed
        · rfl
        · exact absurd hcc hc
      rw [if_neg (by simp [hcf])] at h
      simp only [Except.ok.injEq] at h
      subst h
      refine ⟨rfl, rfl, rfl, rfl, rfl, rfl, rfl, rfl, fun _ => rfl, ?_⟩
      intro hcc
      rw [hcc] at hcf
      cases hcf

/-! ## Magic-page retrieval -/

theorem magicStep_not_requested (tmf : Option String) (c : List Nat)
    (r : TraceResults) (h : pyTruthy tmf = false) : magicStep tmf c r = .ok r := by
  rw [magicStep]
  simp [h]

theorem magicStep_size_error (tmf : Option String) (c : List Nat)
    (r : TraceResults) (ht : pyTruthy tmf = true) (hn : c.length ≠ 4096) :
    magicStep tmf c r =
      .error (.archrError "Magic content read from QEMU improper size, should be a page in length") := by
  rw [magicStep]
  simp [ht, hn]

theorem magicStep_success (tmf : Option String) (c : List Nat)
    (r : TraceResults) (ht : pyTruthy tmf = true) (hn : c.length = 4096) :
    magicStep tmf c r = .ok { r with magic_contents := some c } := by
  rw [magicStep]
  simp [ht, hn]

theorem magicStep_ok_shape (tmf : Option String) (c : List Nat)
    (r r' : TraceResults) (h : magicStep tmf c r = .ok r') :
    r'.returncode = r.returncode ∧ r'.signal = r.signal ∧ r'.crashed = r.crashed ∧
    r'.timed_out = r.timed_out ∧ r'.trace = r.trace ∧
    r'.crash_address = r.crash_address ∧ r'.base_address = r.base_address ∧
    r'.core_path = r.core_path ∧
    (pyTruthy tmf = true → r'.magic_contents = some c ∧ c.length = 4096) ∧
    (pyTruthy tmf = false → r'.magic_contents = r.magic_contents) := by
  rw [magicStep] at h
  by_cases ht : pyTruthy tmf = true
  · rw [if_pos ht] at h
    by_cases hn : c.length ≠ 0x1000
    · rw [if_pos hn] at h
      simp at h
    · rw [if_neg hn] at h
      simp only [Except.ok.injEq] at h
      subst h
      simp only [not_not] at hn
      refine ⟨rfl, rfl, rfl, rfl, rfl, rfl, rfl, rfl, fun _ => ⟨rfl, hn⟩, ?_⟩
      intro hf
      rw [hf] at ht
      cases ht
  · rw [if_neg (by simp [Bool.not_eq_true] at ht; simp [ht])] at h
    simp only [Except.ok.injEq] at h
    subst h
    have htf : pyTruthy tmf = false := by
      cases hcc : pyTruthy tmf
      · rfl
      · exact absurd hcc ht
    refine ⟨rfl, rfl, rfl, rfl, rfl, rfl, rfl, rfl, ?_, fun _ => rfl⟩
    intro hcc
    rw [hcc] at htf
    cases htf

/-! ## Decomposing a successful session -/

theorem fire_context_ok (opts : FireOpts) (env : FireEnv) (r : TraceResults)
    (h : fire_context opts env = .ok r) :
    ∃ r2 r3,
      coreStep (if opts.save_core then some (opts.tmp_pfx ++ ".core") else none)
        env.target_cores env.local_cores
        (classifyCrash env.timed_out env.returncode
          { timed_out := some env.timed_out }) = .ok r2 ∧
      traceStep env.target_os
        (if opts.record_trace then some (opts.tmp_pfx ++ ".trace") else none)
        env.trace_content r2 = .ok r3 ∧
      magicStep (if opts.record_magic then some (opts.tmp_pfx ++ ".magic") else none)
        env.magic_content r3 = .ok r := by
  rw [fire_context] at h
  cases h2 : coreStep (if opts.save_core then some (opts.tmp_pfx ++ ".core") else none)
      env.target_cores env.local_cores
      (classifyCrash env.timed_out env.returncode { timed_out := some env.timed_out }) with
  | error e =>
    rw [h2] at h
    simp at h
  | ok r2 =>
    rw [h2] at h
    simp only [] at h
    cases h3 : traceStep env.target_os
        (if opts.record_trace then some (opts.tmp_pfx ++ ".trace") else none)
        env.trace_content r2 with
    | error e =>
      rw [h3] at h
      simp at h
    | ok r3 =>
      rw [h3] at h
      simp only [] at h
      exact ⟨r2, r3, rfl, h3, h⟩

theorem traceStep_ok_pres (os : String) (tf : Option String) (c : List Char)
    (r r3 : TraceResults) (h : traceStep os tf c r = .ok r3) :
    r3.returncode = r.returncode ∧ r3.signal = r.signal ∧ r3.crashed = r.crashed ∧
    r3.timed_out = r.timed_out ∧ r3.magic_contents = r.magic_contents ∧
    r3.core_path = r.core_path := by
  by_cases ht : pyTruthy tf = true
  · obtain ⟨b, addrs, -, -, -, h1, h2, h3, h4, h5, h6, -, -⟩ :=
      traceStep_ok_shape os tf c r r3 ht h
    exact ⟨h1, h2, h3, h4, h5, h6⟩
  · have htf : pyTruthy tf = false := by
      cases hv : pyTruthy tf
      · rfl
      · exact absurd hv ht
    rw [traceStep_not_requested os tf c r htf] at h
    simp only [Except.ok.injEq] at h
    subst h
    exact ⟨rfl, rfl, rfl, rfl, rfl, rfl⟩

theorem coreStep_ok_requested (lcf : Option String) (tc lc : List String)
    (r r2 : TraceResults) (ht : pyTruthy lcf = true)
    (h : coreStep lcf tc lc r = .ok r2) :
    tc.length = 1 ∧ lc ≠ [] ∧ r2 = { r with core_path := lcf } := by
  rw [coreStep.eq_def, if_pos ht] at h
  by_cases hn : tc.length ≠ 1
  · rw [if_pos hn] at h
    simp at h
  · rw [if_neg hn] at h
    cases lc with
    | nil => simp at h
    | cons c cs =>
      simp only [Except.ok.injEq] at h
      refine ⟨by simpa using hn, by simp, h.symm⟩

theorem fire_context_classified (opts : FireOpts) (env : FireEnv) (r : TraceResults)
    (hok : fire_context opts env = .ok r) :
    r.crashed = (classifyCrash env.timed_out env.returncode
      { timed_out := some env.timed_out }).crashed ∧
    r.signal = (classifyCrash env.timed_out env.returncode
      { timed_out := some env.timed_out }).signal ∧
    r.returncode = (classifyCrash env.timed_out env.returncode
      { timed_out := some env.timed_out }).returncode ∧
    r.timed_out = some env.timed_out := by
  obtain ⟨r2, r3, h2, h3, h4⟩ := fire_context_ok opts env r hok
  obtain ⟨hq1, hq2, hq3, hq4, -, -, -, -⟩ := coreStep_ok_shape _ _ _ _ _ h2
  obtain ⟨ht1, ht2, ht3, ht4, -, -⟩ := traceStep_ok_pres _ _ _ _ _ h3
  obtain ⟨hm1, hm2, hm3, hm4, -, -, -, -, -, -⟩ := magicStep_ok_shape _ _ _ _ h4
  have hto : (classifyCrash env.timed_out env.returncode
      { timed_out := some env.timed_out }).timed_out = some env.timed_out :=
    (classifyCrash_preserves _ _ _).1
  exact ⟨by rw [hm3, ht3, hq3], by rw [hm2, ht2, hq2], by rw [hm1, ht1, hq1],
    by rw [hm4, ht4, hq4, hto]⟩

theorem string_length_ne_zero (s : String) (h : s ≠ "") : s.length ≠ 0 := by
  intro hl
  apply h
  cases s with
  | mk data =>
    cases data with
    | nil => rfl
    | cons c cs => simp [String.length] at hl

/-! ## Claim theorems -/

/-- C1: the claim says a completed session with return code 132 (or raw
signal -9) is classified as an illegal-instruction crash.  The code's
branch `elif r.returncode == [132, -9]` compares an integer with a list
and is therefore never taken: on both inputs the returned record has
`crashed = None` and `signal = None`, not `crashed = True` /
`signal = SIGILL`. -/
theorem C1_sigill_branch_never_fires :
    ((fire_context
        { record_trace := false, record_magic := false, save_core := false,
          tmp_pfx := "/tmp/tracer-a" }
        { target_os := "linux", timed_out := false, returncode := 132,
          target_cores := [], local_cores := [], trace_content := [],
          magic_content := [] }).map (fun r => (r.crashed, r.signal)) =
      Except.ok (none, none)) ∧
    ((fire_context
        { record_trace := false, record_magic := false, save_core := false,
          tmp_pfx := "/tmp/tracer-a" }
        { target_os := "linux", timed_out := false, returncode := -9,
          target_cores := [], local_cores := [], trace_content := [],
          magic_content := [] }).map (fun r => (r.crashed, r.signal)) =
      Except.ok (none, none)) := by
  constructor <;> decide

/-- C5: for every session whose result is returned without timing out,
a process return code of 139 or a raw signal status of -11 is
classified as a crash with `signal = SIGSEGV`. -/
theorem C5_segv_classification (opts : FireOpts) (env : FireEnv) (r : TraceResults)
    (hok : fire_context opts env = .ok r) (ht : env.timed_out = false)
    (hrc : env.returncode = 139 ∨ env.returncode = -11) :
    r.crashed = some true ∧ r.signal = some SIGSEGV := by
  obtain ⟨hc, hs, -, -⟩ := fire_context_classified opts env r hok
  rw [ht, classifyCrash_segv env.returncode _ hrc] at hc hs
  exact ⟨hc, hs⟩

/-- C5 witness: a concrete non-timed-out session with return code 139 is
classified as a SIGSEGV crash. -/
theorem C5_segv_witness :
    ({ returncode := some 139, signal := some 11, crashed := some true,
       timed_out := some false, trace := none, crash_address := none,
       base_address := none, magic_contents := none,
       core_path := none } : TraceResults).crashed = some true ∧
    ({ returncode := some 139, signal := some 11, crashed := some true,
       timed_out := some false, trace := none, crash_address := none,
       base_address := none, magic_contents := none,
       core_path := none } : TraceResults).signal = some SIGSEGV :=
  C5_segv_classification
    { record_trace := false, record_magic := false, save_core := false,
      tmp_pfx := "/tmp/tracer-a" }
    { target_os := "linux", timed_out := false, returncode := 139,
      target_cores := [], local_cores := [], trace_content := [], magic_content := [] }
    _ (by decide) rfl (Or.inl rfl)

/-- C2 counterexample: the claim says a timed-out result has `trace`,
`crash_address` and `base_address` absent, and that `trace` is present
only when the process did not time out.  But the source retrieves and
parses the trace file unconditionally (line 111 is not guarded by
`if not r.timed_out`), so a timed-out session whose partial trace log
parses returns a record with `timed_out = True` and populated `trace`
and `base_address`. -/
theorem C2_timeout_trace_counterexample :
    ¬ (∀ (opts : FireOpts) (env : FireEnv) (r : TraceResults),
        fire_context opts env = Except.ok r → r.timed_out = some true →
        r.trace = none ∧ r.crash_address = none ∧ r.base_address = none) := by
  intro hclaim
  have hr := hclaim
    { record_trace := true, record_magic := false, save_core := false,
      tmp_pfx := "/tmp/tracer-c" }
    { target_os := "linux", timed_out := true, returncode := 0,
      target_cores := [], local_cores := [],
      trace_content := ("start_code 0x400000\nTrace 9 [0x1/0x4010/0x3]\n").toList,
      magic_content := [] }
    { returncode := none, signal := none, crashed := none, timed_out := some true,
      trace := some [0x4010], crash_address := none, base_address := some 0x400000,
      magic_contents := none, core_path := none }
    (by decide) rfl
  exact absurd hr.1 (by decide)

/-- C2 amended: on a timed-out session the crash-classification fields
(`returncode`, `crashed`, `signal`) and `crash_address` are indeed
absent, but trace retrieval still runs: in any returned result, `trace`
and `base_address` are populated exactly when trace recording was
requested (and the retrieved content parses, else the session aborts),
regardless of the timeout. -/
theorem C2_timeout_fields_amended (opts : FireOpts) (env : FireEnv) (r : TraceResults)
    (hok : fire_context opts env = .ok r) (ht : env.timed_out = true) :
    r.returncode = none ∧ r.crashed = none ∧ r.signal = none ∧ r.crash_address = none ∧
    r.trace.isSome = opts.record_trace ∧ r.base_address.isSome = opts.record_trace := by
  obtain ⟨r2, r3, h2, h3, h4⟩ := fire_context_ok opts env r hok
  rw [ht, classifyCrash_timedOut] at h2
  obtain ⟨hq1, hq2, hq3, hq4, hq5, hq6, hq7, hq8⟩ := coreStep_ok_shape _ _ _ _ _ h2
  obtain ⟨hm1, hm2, hm3, hm4, hm5, hm6, hm7, hm8, -, -⟩ := magicStep_ok_shape _ _ _ _ h4
  have htf : pyTruthy (if opts.record_trace then some (opts.tmp_pfx ++ ".trace") else none) =
      opts.record_trace :=
    pyTruthy_if_suffix opts.record_trace opts.tmp_pfx ".trace" (by decide)
  by_cases hrt : opts.record_trace = true
  · have htf2 := htf.trans hrt
    obtain ⟨b, addrs, -, hbase, htrace, ht1, ht2, ht3, -, -, -, himp1, -⟩ :=
      traceStep_ok_shape _ _ _ _ _ htf2 h3
    have hcr2 : truthy r2.crashed = false := by
      rw [hq3]
      rfl
    refine ⟨by rw [hm1, ht1, hq1], by rw [hm3, ht3, hq3], by rw [hm2, ht2, hq2], ?_, ?_, ?_⟩
    · rw [hm6, himp1 hcr2, hq6]
    · rw [hm5, htrace, hrt]
      rfl
    · rw [hm7, hbase, hrt]
      rfl
  · have hrf : opts.record_trace = false := by
      cases hv : opts.record_trace
      · rfl
      · exact absurd hv hrt
    have htf2 := htf.trans hrf
    rw [traceStep_not_requested _ _ _ _ htf2] at h3
    simp only [Except.ok.injEq] at h3
    subst h3
    refine ⟨by rw [hm1, hq1], by rw [hm3, hq3], by rw [hm2, hq2],
      by rw [hm6, hq6], ?_, ?_⟩
    · rw [hm5, hq5, hrf]
      rfl
    · rw [hm7, hq7, hrf]
      rfl

/-- C2 amended witness: a concrete timed-out session with trace
recording on returns unset classification fields and a populated
trace. -/
theorem C2_timeout_fields_witness :
    ({ returncode := none, signal := none, crashed := none, timed_out := some true,
       trace := some [0x4010], crash_address := none, base_address := some 0x400000,
       magic_contents := none, core_path := none } : TraceResults).returncode = none ∧
    ({ returncode := none, signal := none, crashed := none, timed_out := some true,
       trace := some [0x4010], crash_address := none, base_address := some 0x400000,
       magic_contents := none, core_path := none } : TraceResults).crashed = none ∧
    ({ returncode := none, signal := none, crashed := none, timed_out := some true,
       trace := some [0x4010], crash_address := none, base_address := some 0x400000,
       magic_contents := none, core_path := none } : TraceResults).signal = none ∧
    ({ returncode := none, signal := none, crashed := none, timed_out := some true,
       trace := some [0x4010], crash_address := none, base_address := some 0x400000,
       magic_contents := none, core_path := none } : TraceResults).crash_address = none ∧
    ({ returncode := none, signal := none, crashed := none, timed_out := some true,
       trace := some [0x4010], crash_address := none, base_address := some 0x400000,
       magic_contents := none, core_path := none } : TraceResults).trace.isSome = true ∧
    ({ returncode := none, signal := none, crashed := none, timed_out := some true,
       trace := some [0x4010], crash_address := none, base_address := some 0x400000,
       magic_contents := none, core_path := none } : TraceResults).base_address.isSome = true :=
  C2_timeout_fields_amended
    { record_trace := true, record_magic := false, save_core := false,
      tmp_pfx := "/tmp/tracer-c" }
    { target_os := "linux", timed_out := true, returncode := 0,
      target_cores := [], local_cores := [],
      trace_content := ("start_code 0x400000\nTrace 9 [0x1/0x4010/0x3]\n").toList,
      magic_content := [] }
    _ (by decide) rfl

/-- C3: in every returned result of a completed session with tracing
requested and the crash flag truthy, the trace is non-empty and the
crash address is its last element; a truthy crash flag with an empty
parsed trace makes `r.trace[-1]` raise `IndexError`, aborting the
session instead of returning a record (hence no returned record
violates this). -/
theorem C3_fault_address_is_last_trace_entry (opts : FireOpts) (env : FireEnv)
    (r : TraceResults) (hok : fire_context opts env = .ok r)
    (hrt : opts.record_trace = true) (hcr : truthy r.crashed = true) :
    ∃ l, r.trace = some l ∧ l ≠ [] ∧ r.crash_address = l.getLast? := by
  obtain ⟨r2, r3, h2, h3, h4⟩ := fire_context_ok opts env r hok
  have htf : pyTruthy (if opts.record_trace then some (opts.tmp_pfx ++ ".trace") else none) =
      true := by
    rw [pyTruthy_if_suffix opts.record_trace opts.tmp_pfx ".trace" (by decide), hrt]
  obtain ⟨b, addrs, hp, hbase, htrace, -, -, hcrash, -, -, -, -, himp2⟩ :=
    traceStep_ok_shape _ _ _ _ _ htf h3
  obtain ⟨-, -, hm_crashed, -, hm_trace, hm_crash, -, -, -, -⟩ :=
    magicStep_ok_shape _ _ _ _ h4
  have hcr2 : truthy r2.crashed = true := by
    rw [← hcrash, ← hm_crashed]
    exact hcr
  obtain ⟨hne, hca⟩ := himp2 hcr2
  exact ⟨addrs, by rw [hm_trace, htrace], hne, by rw [hm_crash, hca]⟩

/-- C3 witness: a concrete crashing session (return code 139) with a
one-entry trace has that entry as its crash address. -/
theorem C3_fault_address_witness :
    ∃ l, ({ returncode := some 139, signal := some 11, crashed := some true,
            timed_out := some false, trace := some [0x4010], crash_address := some 0x4010,
            base_address := some 0x400000, magic_contents := none,
            core_path := none } : TraceResults).trace = some l ∧ l ≠ [] ∧
      ({ returncode := some 139, signal := some 11, crashed := some true,
         timed_out := some false, trace := some [0x4010], crash_address := some 0x4010,
         base_address := some 0x400000, magic_contents := none,
         core_path := none } : TraceResults).crash_address = l.getLast? :=
  C3_fault_address_is_last_trace_entry
    { record_trace := true, record_magic := false, save_core := false,
      tmp_pfx := "/tmp/tracer-c" }
    { target_os := "linux", timed_out := false, returncode := 139,
      target_cores := [], local_cores := [],
      trace_content := ("start_code 0x400000\nTrace 9 [0x1/0x4010/0x3]\n").toList,
      magic_content := [] }
    _ (by decide) rfl (by decide)

/-- C4: a trace-log buffer made of a `start_code` line whose second
field is a hexadecimal literal of value `B`, followed by the rendered
lines of `pairs` — each a well-formed trace-entry line of the active OS
family's format carrying its address value — parses to base address `B`
and exactly the address values of `pairs`, in line order. -/
theorem C4_parser_roundtrip (os : String) (w : List Char) (B : Nat)
    (pairs : List (List Char × Nat))
    (hw : ∀ c ∈ w, isSpaceChar c = false) (hwne : w ≠ []) (hB : pyIntHex w = some B)
    (hp : ∀ p ∈ pairs, entrySpec os p.1 p.2) :
    parseTraceContent os (joinLines ((startCodePfx ++ ' ' :: w) :: pairs.map Prod.fst)) =
      Except.ok (B, pairs.map Prod.snd) :=
  parseTraceContent_roundtrip os w B pairs hw hwne hB hp

/-- C4 witness: a one-entry synthetic log in the general (non-cgc)
format parses to its encoded base address and address list. -/
theorem C4_parser_roundtrip_witness :
    parseTraceContent "linux"
      (joinLines ((startCodePfx ++ ' ' :: "0x400000".toList) ::
        ([(newLine "9".toList "0x1".toList "0x401000".toList "0x3".toList, 0x401000)].map
          Prod.fst))) =
      Except.ok (0x400000,
        [(newLine "9".toList "0x1".toList "0x401000".toList "0x3".toList, 0x401000)].map
          Prod.snd) :=
  C4_parser_roundtrip "linux" _ _ _
    (by decide) (by decide) (by decide)
    (by
      intro p hp
      simp only [List.mem_singleton] at hp
      subst hp
      rw [entrySpec, if_neg (by decide)]
      exact ⟨"9".toList, "0x1".toList, "0x401000".toList, "0x3".toList, rfl,
        by decide, by decide, by decide, by decide, by decide, by decide, by decide⟩)

/-- C6: with memory-snapshot capture requested, a retrieved buffer whose
length is not exactly 4096 bytes raises the fatal `ArchrError` size
error, and a 4096-byte buffer is accepted and stored; consequently any
returned result of a session with snapshot capture on holds exactly the
retrieved page. -/
theorem C6_magic_page_size :
    (∀ (tmf : Option String) (c : List Nat) (r : TraceResults), pyTruthy tmf = true →
      (c.length ≠ 4096 → magicStep tmf c r =
        .error (.archrError
          "Magic content read from QEMU improper size, should be a page in length")) ∧
      (c.length = 4096 → magicStep tmf c r = .ok { r with magic_contents := some c })) ∧
    (∀ (opts : FireOpts) (env : FireEnv) (r : TraceResults), opts.record_magic = true →
      fire_context opts env = .ok r →
      r.magic_contents = some env.magic_content ∧ env.magic_content.length = 4096) := by
  constructor
  · intro tmf c r ht
    exact ⟨fun hn => magicStep_size_error tmf c r ht hn,
           fun he => magicStep_success tmf c r ht he⟩
  · intro opts env r hrm hok
    obtain ⟨r2, r3, h2, h3, h4⟩ := fire_context_ok opts env r hok
    have htm : pyTruthy (if opts.record_magic then some (opts.tmp_pfx ++ ".magic")
        else none) = true := by
      rw [pyTruthy_if_suffix opts.record_magic opts.tmp_pfx ".magic" (by decide)]
      exact hrm
    obtain ⟨-, -, -, -, -, -, -, -, himp, -⟩ := magicStep_ok_shape _ _ _ _ h4
    exact himp htm

/-- C6 witness: a 4096-byte buffer is accepted and stored; the theorem
applied at a concrete page. -/
theorem C6_magic_page_size_witness :
    magicStep (some "/tmp/tracer-a.magic") (List.replicate 4096 0) {} =
      Except.ok { ({} : TraceResults) with magic_contents := some (List.replicate 4096 0) } :=
  (C6_magic_page_size.1 (some "/tmp/tracer-a.magic") (List.replicate 4096 0) {}
    (by decide)).2 (by rw [List.length_replicate])

/-- C7: with core-dump capture requested, a scratch-directory glob
resolving to any number of core files other than one raises the fatal
cardinality `ArchrError`; exactly one match (with the copied file
present locally) succeeds and records the requested core path in the
result, as every returned session result confirms. -/
theorem C7_core_retrieval_cardinality :
    (∀ (lcf : Option String) (tc lc : List String) (r : TraceResults), pyTruthy lcf = true →
      (tc.length ≠ 1 → coreStep lcf tc lc r =
        .error (.archrError ("expected 1 core file but found " ++ toString tc.length))) ∧
      (tc.length = 1 → lc ≠ [] → coreStep lcf tc lc r = .ok { r with core_path := lcf })) ∧
    (∀ (opts : FireOpts) (env : FireEnv) (r : TraceResults), opts.save_core = true →
      fire_context opts env = .ok r →
      env.target_cores.length = 1 ∧ r.core_path = some (opts.tmp_pfx ++ ".core")) := by
  constructor
  · intro lcf tc lc r ht
    exact ⟨fun hn => coreStep_cardinality lcf tc lc r ht hn,
           fun h1 h2 => coreStep_success lcf tc lc r ht h1 h2⟩
  · intro opts env r hsc hok
    obtain ⟨r2, r3, h2, h3, h4⟩ := fire_context_ok opts env r hok
    have hlc : pyTruthy (if opts.save_core then some (opts.tmp_pfx ++ ".core")
        else none) = true := by
      rw [pyTruthy_if_suffix opts.save_core opts.tmp_pfx ".core" (by decide)]
      exact hsc
    obtain ⟨hcard, -, hr2⟩ := coreStep_ok_requested _ _ _ _ _ hlc h2
    obtain ⟨-, -, -, -, -, hcore_t⟩ := traceStep_ok_pres _ _ _ _ _ h3
    obtain ⟨-, -, -, -, -, -, -, hcore_m, -, -⟩ := magicStep_ok_shape _ _ _ _ h4
    refine ⟨hcard, ?_⟩
    rw [hcore_m, hcore_t, hr2]
    simp [hsc]

/-- C7 witness: one glob match and a present local copy record the
requested core path. -/
theorem C7_core_retrieval_witness :
    coreStep (some "/tmp/tracer-a.core") ["/tmp/tracer_q/qemu_1.core"]
      ["/tmp/local/qemu_1.core"] {} =
      Except.ok { ({} : TraceResults) with core_path := some "/tmp/tracer-a.core" } :=
  (C7_core_retrieval_cardinality.1 (some "/tmp/tracer-a.core")
    ["/tmp/tracer_q/qemu_1.core"] ["/tmp/local/qemu_1.core"] {} (by decide)).2 rfl (by decide)

/-- C8 counterexample: in the end-to-end scenario (trace recording on,
exit status 0, `start_code 0x400000` plus ten trace lines) the claim
asserts `crashed = false`; but no assignment ever sets `crashed` to
`False` — on a clean exit it remains `None`. -/
theorem C8_scenario_counterexample :
    ¬ ((fire_context
        { record_trace := true, record_magic := false, save_core := false,
          tmp_pfx := "/tmp/tracer-b" }
        { target_os := "linux", timed_out := false, returncode := 0, target_cores := [],
          local_cores := [],
          trace_content := ("start_code 0x400000\nTrace 9 [0x1/0x400100/0x3]\nTrace 9 [0x1/0x400200/0x3]\nTrace 9 [0x1/0x400300/0x3]\nTrace 9 [0x1/0x400400/0x3]\nTrace 9 [0x1/0x400500/0x3]\nTrace 9 [0x1/0x400600/0x3]\nTrace 9 [0x1/0x400700/0x3]\nTrace 9 [0x1/0x400800/0x3]\nTrace 9 [0x1/0x400900/0x3]\nTrace 9 [0x1/0x401000/0x3]\n").toList,
          magic_content := [] }).map (fun r => r.crashed) = Except.ok (some false)) := by
  decide

/-- C8 amended: in the same scenario the result is returned with
`crashed` unset (`None`, hence falsy), `base_address = 0x400000`, the
ten trace entries in order ending at 0x401000, and
`timed_out = false`. -/
theorem C8_scenario_amended :
    (fire_context
        { record_trace := true, record_magic := false, save_core := false,
          tmp_pfx := "/tmp/tracer-b" }
        { target_os := "linux", timed_out := false, returncode := 0, target_cores := [],
          local_cores := [],
          trace_content := ("start_code 0x400000\nTrace 9 [0x1/0x400100/0x3]\nTrace 9 [0x1/0x400200/0x3]\nTrace 9 [0x1/0x400300/0x3]\nTrace 9 [0x1/0x400400/0x3]\nTrace 9 [0x1/0x400500/0x3]\nTrace 9 [0x1/0x400600/0x3]\nTrace 9 [0x1/0x400700/0x3]\nTrace 9 [0x1/0x400800/0x3]\nTrace 9 [0x1/0x400900/0x3]\nTrace 9 [0x1/0x401000/0x3]\n").toList,
          magic_content := [] }).map
      (fun r => (r.crashed, truthy r.crashed, r.timed_out)) =
      Except.ok (none, false, some false) ∧
    (fire_context
        { record_trace := true, record_magic := false, save_core := false,
          tmp_pfx := "/tmp/tracer-b" }
        { target_os := "linux", timed_out := false, returncode := 0, target_cores := [],
          local_cores := [],
          trace_content := ("start_code 0x400000\nTrace 9 [0x1/0x400100/0x3]\nTrace 9 [0x1/0x400200/0x3]\nTrace 9 [0x1/0x400300/0x3]\nTrace 9 [0x1/0x400400/0x3]\nTrace 9 [0x1/0x400500/0x3]\nTrace 9 [0x1/0x400600/0x3]\nTrace 9 [0x1/0x400700/0x3]\nTrace 9 [0x1/0x400800/0x3]\nTrace 9 [0x1/0x400900/0x3]\nTrace 9 [0x1/0x401000/0x3]\n").toList,
          magic_content := [] }).map
      (fun r => (r.base_address, r.trace)) =
      Except.ok (some 0x400000,
        some [0x400100, 0x400200, 0x400300, 0x400400, 0x400500, 0x400600, 0x400700,
          0x400800, 0x400900, 0x401000]) := by
  constructor <;> decide

/-- C9 counterexample: the claim attaches `-d exec` to the CGC OS
family and `-d nochain,exec,page` to every other OS family, but the
code dispatches on the substring `cgc` of the chosen variant NAME: a
non-cgc target whose architecture tag contains `cgc` gets `-d exec`
(and the cgc-only memory limit), with no `nochain,exec,page`
anywhere. -/
theorem C9_trace_flags_counterexample :
    ({ target_os := "linux", target_arch := "cgc", target_env := [],
        target_args := [] } : TargetMeta).target_os ≠ "cgc" ∧
    _build_command
      { target_os := "linux", target_arch := "cgc", target_env := [], target_args := [] }
      (some "/tmp/tracer-a.trace") none none "." false none =
      ["/tmp/shellphish_qemu/fire", "shellphish-qemu-linux-cgc", "-C", ".",
        "-d", "exec", "-D", "/tmp/tracer-a.trace", "-m", "8G"] ∧
    "nochain,exec,page" ∉ _build_command
      { target_os := "linux", target_arch := "cgc", target_env := [], target_args := [] }
      (some "/tmp/tracer-a.trace") none none "." false none := by
  refine ⟨by decide, by decide, by decide⟩

/-- C9 amended: for every input, if trace recording is requested the
built command is the launcher prefix followed by the tracing flags —
`-d exec` when the chosen variant name contains `cgc` (which holds for
the CGC OS family, and otherwise only when the architecture tag
contains `cgc`), `-d nochain,exec,page` otherwise — each followed by
`-D <trace file>`; with trace recording off the
double-empty-exit-disabling flag is appended instead. -/
theorem C9_trace_flags (meta : TargetMeta) (tf lp mf : Option String) (cd : String)
    (rba : Bool) (seed : Option Nat) :
    (∀ f, tf = some f → f ≠ "" →
      _build_command meta tf lp mf cd rba seed =
        ["/tmp/shellphish_qemu/fire",
          qemu_variant meta.target_os meta.target_arch true, "-C", cd] ++
        ((if strContains (qemu_variant meta.target_os meta.target_arch true) "cgc" then
            ["-d", "exec", "-D", f]
          else ["-d", "nochain,exec,page", "-D", f]) ++
        ((if pyTruthy mf then ["-magicdump", mf.getD ""] else []) ++
        ((match seed with | some s => ["-seed", toString s] | none => []) ++
        ((if rba then ["-report_bad_args"] else []) ++
        ((if strContains (qemu_variant meta.target_os meta.target_arch true) "cgc" then
            ["-m", "8G"] else []) ++
        ((if ¬ strContains (qemu_variant meta.target_os meta.target_arch true) "cgc" ∧
              "LD_BIND_NOW=1" ∉ meta.target_env then
            ["-E", "LD_BIND_NOW=1"] else []) ++
        ((match lp with
          | some l => if l.length != 0 then ["-E", "LD_LIBRARY_PATH=" ++ l] else []
          | none => []) ++
        meta.target_args)))))))) ∧
    (tf = none →
      _build_command meta tf lp mf cd rba seed =
        ["/tmp/shellphish_qemu/fire",
          qemu_variant meta.target_os meta.target_arch false, "-C", cd] ++
        (["-enable_double_empty_exiting"] ++
        ((if pyTruthy mf then ["-magicdump", mf.getD ""] else []) ++
        ((match seed with | some s => ["-seed", toString s] | none => []) ++
        ((if rba then ["-report_bad_args"] else []) ++
        ((if strContains (qemu_variant meta.target_os meta.target_arch false) "cgc" then
            ["-m", "8G"] else []) ++
        ((if ¬ strContains (qemu_variant meta.target_os meta.target_arch false) "cgc" ∧
              "LD_BIND_NOW=1" ∉ meta.target_env then
            ["-E", "LD_BIND_NOW=1"] else []) ++
        ((match lp with
          | some l => if l.length != 0 then ["-E", "LD_LIBRARY_PATH=" ++ l] else []
          | none => []) ++
        meta.target_args)))))))) := by
  constructor
  · rintro f rfl hne
    have hlen : pyTruthy (some f) = true := by
      rw [pyTruthy]
      simpa using string_length_ne_zero f hne
    simp only [_build_command, Option.isSome_some, Option.getD_some, hlen]
    by_cases hv : strContains (qemu_variant meta.target_os meta.target_arch true) "cgc" = true
    · simp [hv]
      cases seed <;> rfl
    · have hv2 : strContains (qemu_variant meta.target_os meta.target_arch true) "cgc" = false := by
        cases hc : strContains (qemu_variant meta.target_os meta.target_arch true) "cgc"
        · rfl
        · exact absurd hc hv
      simp [hv2]
      cases seed <;> rfl
  · rintro rfl
    simp only [_build_command, Option.isSome_none, pyTruthy]
    simp
    cases seed <;> rfl

/-- C9 witness: a plain x86_64 Linux target with a trace file gets the
non-chaining flags right after the fixed prefix. -/
theorem C9_trace_flags_witness :
    _build_command
      { target_os := "linux", target_arch := "x86_64", target_env := [], target_args := [] }
      (some "/tmp/tracer-a.trace") none none "." false none =
      ["/tmp/shellphish_qemu/fire", "shellphish-qemu-linux-x86_64", "-C", ".",
        "-d", "nochain,exec,page", "-D", "/tmp/tracer-a.trace", "-E", "LD_BIND_NOW=1"] := by
  rw [(C9_trace_flags
    { target_os := "linux", target_arch := "x86_64", target_env := [], target_args := [] }
    (some "/tmp/tracer-a.trace") none none "." false none).1
    "/tmp/tracer-a.trace" rfl (by decide)]
  decide

/-- C10: a bare string or bytes testcase is treated as the one-element
list holding it: the stdin interaction of `fire` is a write of each
element in order — strings UTF-8 encoded first — followed by closing
the stream, still inside the execution scope. -/
theorem C10_scalar_testcase (v : PyVal) :
    fireStdinEvents (TestcaseArg.scalar v) = fireStdinEvents (TestcaseArg.seq [v]) ∧
    fireStdinEvents (TestcaseArg.scalar v) =
      [StdinEvent.write (pyEncodeElem v), StdinEvent.closeStdin] :=
  ⟨rfl, rfl⟩

/-- C10 witness: a concrete bytes testcase produces one write followed
by the close. -/
theorem C10_scalar_testcase_witness :
    fireStdinEvents (TestcaseArg.scalar (PyVal.bytes [65, 66])) =
      fireStdinEvents (TestcaseArg.seq [PyVal.bytes [65, 66]]) ∧
    fireStdinEvents (TestcaseArg.scalar (PyVal.bytes [65, 66])) =
      [StdinEvent.write [65, 66], StdinEvent.closeStdin] :=
  C10_scalar_testcase (PyVal.bytes [65, 66])

end QemuTracer
